import Mathlib

/-!
Verification of the Luau transpiler core (src/Analysis/src/Transpiler.cpp and
src/Ast/include/Luau/Cst.h), via a shallow embedding of the printer, the
string writer and the CST RTTI scheme into Lean.

Strings are modelled as `List Char`; the C++ `unsigned int` line/column
fields of `Position` are modelled as `Nat`, with explicit mod-2^32 wrapping
(`subU32`) at the code sites that subtract from a possibly-zero column, which
is where unsigned wraparound is observable.
-/

namespace LuauSpec

/-! ## Positions and locations (Luau/Location.h) -/

/-- `Position`: zero-based `(line, column)`; `unsigned int` in the source. -/
structure Position where
  line : Nat
  column : Nat
deriving DecidableEq, Repr

instance : Inhabited Position := ⟨⟨0, 0⟩⟩

/-- `Location`: begin/end positions, end exclusive. `b` is `location.begin`,
`e` is `location.end`. -/
structure Location where
  b : Position
  e : Position
deriving DecidableEq, Repr

instance : Inhabited Location := ⟨⟨⟨0, 0⟩, ⟨0, 0⟩⟩⟩

/-- Lexicographic order on output cursor positions. -/
def posLe (p q : Position) : Prop :=
  p.line < q.line ∨ (p.line = q.line ∧ p.column ≤ q.column)

theorem posLe_refl (p : Position) : posLe p p := Or.inr ⟨rfl, le_refl _⟩

theorem posLe_trans {p q r : Position} (h1 : posLe p q) (h2 : posLe q r) :
    posLe p r := by
  rcases h1 with h1 | ⟨h1, h1c⟩ <;> rcases h2 with h2 | ⟨h2, h2c⟩
  · exact Or.inl (h1.trans h2)
  · exact Or.inl (h2 ▸ h1)
  · exact Or.inl (h1 ▸ h2)
  · exact Or.inr ⟨h1.trans h2, h1c.trans h2c⟩

/-- Unsigned 32-bit subtraction `a - b` as the C++ `unsigned int` arithmetic
performs it (the source stores columns in `unsigned int`). For `a b < 2^32`
this is `(a - b) mod 2^32` in the wrap-around sense. -/
def subU32 (a b : Nat) : Nat :=
  (a + (2 ^ 32 - b % 2 ^ 32)) % 2 ^ 32

theorem subU32_zero_one : subU32 0 1 = 2 ^ 32 - 1 := by decide

/-! ## Character classes (Transpiler.cpp lines 16-29) -/

def isIdentifierStartChar (c : Char) : Bool :=
  ('A' ≤ c && c ≤ 'Z') || ('a' ≤ c && c ≤ 'z') || c == '_'

def isDigit (c : Char) : Bool :=
  '0' ≤ c && c ≤ '9'

def isIdentifierChar (c : Char) : Bool :=
  isIdentifierStartChar c || isDigit c

/-! ## StringWriter (Transpiler.cpp lines 56-231)

The `toks` field is ghost instrumentation: it records, for every call of a
token-emitting writer operation (`identifier`, `keyword`, `symbol`,
`literal`, `string`, and direct token writes from the printer), the offset in
`ss` at which the token text starts together with that text. It does not
influence `ss`, `pos` or `lastChar`, which follow the C++ code exactly.
Whitespace produced by `advance`, `space`, `newline` and the adjacency guards
is not a token and is not recorded. -/

structure StringWriter where
  ss : List Char
  pos : Position
  lastChar : Char
  toks : List (Nat × List Char)
deriving DecidableEq, Repr

/-- A fresh writer: empty buffer, cursor `(0,0)`, `lastChar = '\0'`. -/
def SW0 : StringWriter := ⟨[], ⟨0, 0⟩, Char.ofNat 0, []⟩

/-- `newline()`: emit `'\n'`, cursor to `(line+1, 0)`. -/
def newline (w : StringWriter) : StringWriter :=
  { ss := w.ss ++ ['\n'], pos := ⟨w.pos.line + 1, 0⟩, lastChar := '\n', toks := w.toks }

/-- `space()`: emit one space, `column += 1`. -/
def space (w : StringWriter) : StringWriter :=
  { ss := w.ss ++ [' '], pos := ⟨w.pos.line, w.pos.column + 1⟩, lastChar := ' ', toks := w.toks }

/-- `write(std::string_view)` for single-line payloads (the writer's raw
append): no-op on empty input, otherwise append, add the length to the
column, remember the last character. Used for non-token output (padding,
quotes). -/
def writeRaw (w : StringWriter) (s : List Char) : StringWriter :=
  if s = [] then w
  else
    { ss := w.ss ++ s,
      pos := ⟨w.pos.line, w.pos.column + s.length⟩,
      lastChar := s.getLastD w.lastChar,
      toks := w.toks }

/-- The same raw append, used at call sites that emit a token: additionally
records the token text and its start offset in the ghost `toks` log. -/
def logWrite (w : StringWriter) (s : List Char) : StringWriter :=
  if s = [] then w
  else
    { ss := w.ss ++ s,
      pos := ⟨w.pos.line, w.pos.column + s.length⟩,
      lastChar := s.getLastD w.lastChar,
      toks := w.toks ++ [(w.ss.length, s)] }

/-- Iterated `newline()` — the body of `advance`'s `while` loop, run `n`
times. -/
def nlIter : Nat → StringWriter → StringWriter
  | 0, w => w
  | n + 1, w => nlIter n (newline w)

/-- `advance(newPos)` (lines 67-74): emit newlines while the cursor line is
behind, then pad with spaces if the cursor column is behind. The two checks
are independent. -/
def advance (w : StringWriter) (p : Position) : StringWriter :=
  let w1 := nlIter (p.line - w.pos.line) w
  if w1.pos.column < p.column then
    writeRaw w1 (List.replicate (p.column - w1.pos.column) ' ')
  else w1

/-- `maybeSpace(newPos, reserve)` (lines 76-80). -/
def maybeSpace (w : StringWriter) (p : Position) (reserve : Nat) : StringWriter :=
  if w.pos.column + reserve < p.column then space w else w

/-- `writeMultiline` (lines 97-121): append, count embedded newlines; if any,
the column becomes the length of the text after the last newline. -/
def writeMultiline (w : StringWriter) (s : List Char) : StringWriter :=
  if s = [] then w
  else
    let numLines := s.count '\n'
    { ss := w.ss ++ s,
      pos :=
        if numLines = 0 then ⟨w.pos.line, w.pos.column + s.length⟩
        else ⟨w.pos.line + numLines, (s.reverse.takeWhile (· ≠ '\n')).length⟩,
      lastChar := s.getLastD w.lastChar,
      toks := w.toks }

/-- `identifier(s)` (lines 140-149): space-guard against a preceding
identifier character, then write. -/
def identifier (w : StringWriter) (s : List Char) : StringWriter :=
  if s = [] then w
  else logWrite (if isIdentifierChar w.lastChar then space w else w) s

/-- `keyword(s)` (lines 151-160): same adjacency rule as `identifier`. -/
def keyword (w : StringWriter) (s : List Char) : StringWriter :=
  if s = [] then w
  else logWrite (if isIdentifierChar w.lastChar then space w else w) s

/-- `symbol(s)` (lines 162-169): writes as-is (the digit-dot space insertion
is commented out in the source). -/
def symbolW (w : StringWriter) (s : List Char) : StringWriter :=
  logWrite w s

/-- `literal(s)` (lines 171-180): space-guard only when the previous
character is an identifier character and the literal starts with a digit. -/
def literal (w : StringWriter) (s : List Char) : StringWriter :=
  if s = [] then w
  else logWrite (if isIdentifierChar w.lastChar && isDigit (s.headD ' ') then space w else w) s

/-! ## Short-string escaping (external `Luau::escape`)

The escaping utility lives in StringUtils.cpp, outside the four source files;
the spec describes it only as producing "a conventionally escaped short
string", with the interpolation mode additionally escaping backtick, brace,
backslash and control characters (§4.1, §4.3). -/

/-- Decimal digit character. -/
def digitChar (n : Nat) : Char := Char.ofNat (48 + n % 10)

/-- Modelled from the spec: one character of the external `escape` utility
("conventionally escaped", §4.1): printable characters other than backslash
and the two quotes pass through; in interpolation mode backtick and the open
brace get a backslash; named control characters use mnemonic escapes, the
quotes and backslash are backslash-escaped, and anything else becomes a
three-digit decimal escape. -/
def escapeOne (forInterp : Bool) (c : Char) : List Char :=
  if forInterp && (c == Char.ofNat 96 || c == Char.ofNat 123) then ['\\', c]
  else if ' ' ≤ c && c != '\\' && c != '\'' && c != '"' then [c]
  else if c = '\n' then ['\\', 'n']
  else if c = '\t' then ['\\', 't']
  else if c = '\r' then ['\\', 'r']
  else if c = Char.ofNat 7 then ['\\', 'a']
  else if c = Char.ofNat 8 then ['\\', 'b']
  else if c = Char.ofNat 12 then ['\\', 'f']
  else if c = Char.ofNat 11 then ['\\', 'v']
  else if c = '\\' then ['\\', '\\']
  else if c = '\'' then ['\\', '\'']
  else if c = '"' then ['\\', '"']
  else ['\\', digitChar (c.toNat / 100), digitChar (c.toNat / 10), digitChar c.toNat]

/-- Modelled from the spec: the external `escape(s, escapeForInterpString)`
utility, applied characterwise. -/
def escape (s : List Char) (forInterp : Bool) : List Char :=
  (s.map (escapeOne forInterp)).flatten

/-- `string(s)` (lines 182-191): single-quote by default, switch to double
quote when the payload contains a single quote; the quotes and the escaped
payload are appended exactly as the three consecutive `write` calls do, and
the whole quoted literal is logged as one token. -/
def stringW (w : StringWriter) (s : List Char) : StringWriter :=
  let quote : Char := if s.contains '\'' then '"' else '\''
  logWrite w (quote :: (escape s false ++ [quote]))

/-- Quote styles of `CstExprConstantString` (Cst.h lines 89-95). -/
inductive QuoteStyle where
  | quotedSingle
  | quotedDouble
  | quotedRaw
  | quotedInterp
deriving DecidableEq, Repr

/-- `sourceString(s, quoteStyle, blockDepth)` (lines 193-230): long-bracket
raw form with `blockDepth` equals signs, or a quoted form whose payload is
written verbatim via `writeMultiline`. The `QuotedRaw` default in the quote
switch is unreachable (asserted in the source). -/
def sourceStringW (w : StringWriter) (s : List Char) (qs : QuoteStyle) (blockDepth : Nat) :
    StringWriter :=
  match qs with
  | .quotedRaw =>
    let blocks := List.replicate blockDepth '='
    let w := writeRaw w ('[' :: blocks ++ ['['])
    let w := writeMultiline w s
    writeRaw w (']' :: blocks ++ [']'])
  | _ =>
    let quote : Char :=
      match qs with
      | .quotedDouble => '"'
      | .quotedSingle => '\''
      | .quotedInterp => Char.ofNat 96
      | .quotedRaw => '"'
    let w := writeRaw w [quote]
    let w := writeMultiline w s
    writeRaw w [quote]

/-! ## Delimiter injectors (Transpiler.cpp lines 233-296)

`CommaSeparatorInserter` and `ArgNameInserter` are stateful callables; their
state (the `first` flag and the cursor into the optional position sequences)
is threaded explicitly. A `none` sequence models the null pointer. When a
non-null position sequence is exhausted the C++ would read past the supplied
array; parser-produced CSTs always supply enough positions, and the model
then emits without advancing. -/

def commaEmit (w : StringWriter) (commas : Option (List Position)) :
    StringWriter × Option (List Position) :=
  match commas with
  | none => (symbolW w [','], none)
  | some [] => (symbolW w [','], some [])
  | some (p :: rest) => (symbolW (advance w p) [','], some rest)

/-- `AstArgumentName`: an argument name with its location. -/
abbrev ArgName := List Char × Location

def argNameEmit (w : StringWriter) (names : Option (List (Option ArgName)))
    (colons : Option (List (Option Position))) :
    StringWriter × Option (List (Option ArgName)) × Option (List (Option Position)) :=
  match names with
  | none => (w, none, colons)
  | some [] => (w, some [], colons)
  | some (none :: rest) => (w, some rest, colons)
  | some (some (nm, nloc) :: rest) =>
    let w := advance w nloc.b
    let w := identifier w nm
    match colons with
    | none => (symbolW w [':'], some rest, none)
    | some cs =>
      match cs with
      | [] => (symbolW w [':'], some rest, some [])
      | c :: crest =>
        let w := match c with
          | some cp => advance w cp
          | none => w
        (symbolW w [':'], some rest, some crest)

/-! ## CST records consumed by the type printer

`CstExprConstantString` payload fields (Cst.h lines 97-101). The class-index
games of the RTTI scheme are modelled separately below; here the printer's
side-table lookup `cstNodeMap[node]` followed by the typed downcast is
modelled as an optional typed record stored alongside the node. -/

structure CstStringRec where
  sourceString : List Char
  quoteStyle : QuoteStyle
  blockDepth : Nat
deriving DecidableEq, Repr

/-- Modelled from the spec (§3.3) and the use sites at Transpiler.cpp lines
1306-1337: the `CstTypeReference` record (declared outside the provided
sources) carries the prefix dot position, the angle-bracket positions and
the parameter comma positions. -/
structure CstTypeRefRec where
  prefixPointPosition : Option Position
  openParametersPosition : Position
  closeParametersPosition : Position
  parametersCommaPositions : List Position
deriving DecidableEq, Repr

/-- Modelled from the spec (§3.3) and the use sites at Transpiler.cpp lines
1342-1389: the `CstTypeFunction` record (declared outside the provided
sources). -/
structure CstTypeFnRec where
  openGenericsPosition : Position
  closeGenericsPosition : Position
  genericsCommaPositions : List Position
  openArgsPosition : Position
  closeArgsPosition : Position
  argumentsCommaPositions : List Position
  argumentNameColonPositions : List (Option Position)
  returnArrowPosition : Position
deriving DecidableEq, Repr

/-! ## Type annotations (§3.2; AstType node family)

The constructors modelled here are the ones the claims reach: references,
function types, unions, intersections, boolean and string singletons and the
error type. (`AstTypeTable` and `AstTypeTypeof` are not modelled.) -/

mutual
inductive AstType where
  | ref (loc : Location) (prefixName : Option (List Char)) (nameLoc : Location)
      (name : List Char) (params : List AstTypeOrPack) (hasParameterList : Bool)
      (cst : Option CstTypeRefRec)
  | fn (loc : Location) (generics : List (Location × List Char))
      (genericPacks : List (Location × List Char)) (argTypes : AstTypeList)
      (argNames : List (Option ArgName)) (retTypes : AstTypeList)
      (cst : Option CstTypeFnRec)
  | union (loc : Location) (types : List AstType)
  | inter (loc : Location) (types : List AstType)
  | singletonBool (loc : Location) (value : Bool)
  | singletonString (loc : Location) (value : List Char) (cst : Option CstStringRec)
  | errorType (loc : Location)

inductive AstTypeOrPack where
  | ty (t : AstType)
  | pack (p : AstTypePack)

inductive AstTypePack where
  | variadic (loc : Location) (variadicType : AstType)
  | generic (loc : Location) (genericName : List Char)
  | explicitPack (loc : Location) (typeList : AstTypeList)

inductive AstTypeList where
  | mk (types : List AstType) (tailType : Option AstTypePack)
end

def AstType.loc : AstType → Location
  | .ref l .. => l
  | .fn l .. => l
  | .union l _ => l
  | .inter l _ => l
  | .singletonBool l _ => l
  | .singletonString l .. => l
  | .errorType l => l

def AstTypePack.loc : AstTypePack → Location
  | .variadic l _ => l
  | .generic l _ => l
  | .explicitPack l _ => l

/-- `l->as<AstTypeReference>()` yielding a reference named `nil`
(Transpiler.cpp lines 1557-1563: the check is on the name only). -/
def isNilRef : AstType → Bool
  | .ref _ _ _ name _ _ _ => name = "nil".data
  | _ => false

def isInterType : AstType → Bool
  | .inter _ _ => true
  | _ => false

def isFnType : AstType → Bool
  | .fn .. => true
  | _ => false

def isUnionType : AstType → Bool
  | .union _ _ => true
  | _ => false

/-- The two generics loops of the source (lines 1352-1366 and elsewhere):
comma, advance to the generic's begin, identifier, and for generic packs a
trailing `...`. Returns the updated comma-inserter state. -/
def genericsJoin (withDots : Bool) :
    List (Location × List Char) → Bool → Option (List Position) → StringWriter →
    StringWriter × Bool × Option (List Position)
  | [], first, commas, w => (w, first, commas)
  | (gloc, gname) :: rest, first, commas, w =>
    let wc := if first then (w, commas) else commaEmit w commas
    let w := advance wc.1 gloc.b
    let w := identifier w gname
    let w := if withDots then symbolW w "...".data else w
    genericsJoin withDots rest false wc.2 w

mutual

/-- `Printer::visualizeTypeAnnotation` (Transpiler.cpp lines 1301-1644),
restricted to the modelled node kinds. -/
def visualizeTypeAnnot (t : AstType) (w : StringWriter) : StringWriter :=
  let w := advance w t.loc.b
  match t with
  | .ref _ prefixName nameLoc name params hasParameterList cst =>
    let w :=
      match prefixName with
      | some p =>
        let w := logWrite w p
        let w :=
          match cst with
          | some c =>
            match c.prefixPointPosition with
            | some pp => advance w pp
            | none => w
          | none => w
        symbolW w ['.']
      | none => w
    let w := advance w nameLoc.b
    let w := logWrite w name
    if params.length > 0 || hasParameterList then
      let w :=
        match cst with
        | some c => advance w c.openParametersPosition
        | none => w
      let w := symbolW w ['<']
      let res := typeOrPackLoop params true
        (match cst with
         | some c => some c.parametersCommaPositions
         | none => none) w
      let w :=
        match cst with
        | some c => advance res.1 c.closeParametersPosition
        | none => res.1
      symbolW w ['>']
    else w
  | .fn _ generics genericPacks argTypes argNames retTypes cst =>
    let w :=
      if generics.length > 0 || genericPacks.length > 0 then
        let w :=
          match cst with
          | some c => advance w c.openGenericsPosition
          | none => w
        let w := symbolW w ['<']
        let r1 := genericsJoin false generics true
          (match cst with
           | some c => some c.genericsCommaPositions
           | none => none) w
        let r2 := genericsJoin true genericPacks r1.2.1 r1.2.2 r1.1
        let w :=
          match cst with
          | some c => advance r2.1 c.closeGenericsPosition
          | none => r2.1
        symbolW w ['>']
      else w
    let w := visualizeNamedTypeList argTypes true
      (match cst with
       | some c => some c.openArgsPosition
       | none => none)
      (match cst with
       | some c => some c.closeArgsPosition
       | none => none)
      (match cst with
       | some c => some c.argumentsCommaPositions
       | none => none)
      (some argNames)
      (match cst with
       | some c => some c.argumentNameColonPositions
       | none => none) w
    let w :=
      match cst with
      | some c => advance w c.returnArrowPosition
      | none => w
    let w := symbolW w "->".data
    let w := space w
    visualizeNamedTypeList retTypes true none none none none none w
  | .union _ [t0, t1] =>
    -- size == 2: the source takes l := t0, r := t1, swaps when l is the
    -- `nil` reference, and contracts to `?` when r then is the `nil`
    -- reference; so the member printed is t1 when t0 is nil-named, and t0
    -- when only t1 is.
    if isNilRef t0 then
      let wrap := isInterType t1 || isFnType t1
      let w := if wrap then symbolW w ['('] else w
      let w := visualizeTypeAnnot t1 w
      let w := if wrap then symbolW w [')'] else w
      symbolW w ['?']
    else if isNilRef t1 then
      let wrap := isInterType t0 || isFnType t0
      let w := if wrap then symbolW w ['('] else w
      let w := visualizeTypeAnnot t0 w
      let w := if wrap then symbolW w [')'] else w
      symbolW w ['?']
    else unionJoin [t0, t1] true w
  | .union _ ts => unionJoin ts true w
  | .inter _ ts => interJoin ts true w
  | .singletonBool _ v => keyword w (if v then "true".data else "false".data)
  | .singletonString _ v cst =>
    match cst with
    | some c => sourceStringW w c.sourceString c.quoteStyle c.blockDepth
    | none => stringW w v
  | .errorType _ => symbolW w "%error-type%".data
termination_by sizeOf t
decreasing_by all_goals (simp_wf <;> omega)

/-- The parameter loop of the reference case (lines 1326-1334). -/
def typeOrPackLoop (ps : List AstTypeOrPack) (first : Bool)
    (commas : Option (List Position)) (w : StringWriter) :
    StringWriter × Option (List Position) :=
  match ps with
  | [] => (w, commas)
  | p :: rest =>
    let wc := if first then (w, commas) else commaEmit w commas
    let w :=
      match p with
      | .ty t => visualizeTypeAnnot t wc.1
      | .pack pk => visualizeTypePackAnnot pk false wc.1
    typeOrPackLoop rest false wc.2 w
termination_by sizeOf ps
decreasing_by all_goals (simp_wf <;> omega)

/-- `Printer::visualizeTypePackAnnotation` (lines 322-346). -/
def visualizeTypePackAnnot (p : AstTypePack) (forVarArg : Bool) (w : StringWriter) :
    StringWriter :=
  let w := advance w p.loc.b
  match p with
  | .variadic _ vt =>
    let w := if forVarArg then w else symbolW w "...".data
    visualizeTypeAnnot vt w
  | .generic _ name =>
    let w := symbolW w name
    symbolW w "...".data
  | .explicitPack _ tl =>
    visualizeNamedTypeList tl true none none none none none w
termination_by sizeOf p
decreasing_by all_goals (simp_wf <;> omega)

/-- `Printer::visualizeNamedTypeList` (lines 348-422): the three cases on
the number of types (zero, one, many), with optional parenthesis positions,
comma positions, argument names and colon positions. -/
def visualizeNamedTypeList (list : AstTypeList) (uncond : Bool)
    (openPos closePos : Option Position) (commas : Option (List Position))
    (argNames : Option (List (Option ArgName))) (colons : Option (List (Option Position)))
    (w : StringWriter) : StringWriter :=
  match list with
  | .mk types tailType =>
    let typeCount := types.length + (if tailType.isSome then 1 else 0)
    if typeCount = 0 then
      let w :=
        match openPos with
        | some p => advance w p
        | none => w
      let w := symbolW w ['(']
      let w :=
        match closePos with
        | some p => advance w p
        | none => w
      symbolW w [')']
    else if typeCount = 1 then
      let w :=
        if uncond then
          let w :=
            match openPos with
            | some p => advance w p
            | none => w
          symbolW w ['(']
        else w
      let r := argNameEmit w argNames colons
      let w :=
        match types with
        | [] =>
          match tailType with
          | some tp => visualizeTypePackAnnot tp false r.1
          | none => r.1
        | t :: _ => visualizeTypeAnnot t r.1
      if uncond then
        let w :=
          match closePos with
          | some p => advance w p
          | none => w
        symbolW w [')']
      else w
    else
      let w :=
        match openPos with
        | some p => advance w p
        | none => w
      let w := symbolW w ['(']
      let r := namedListLoop types true commas argNames colons w
      let w :=
        match tailType with
        | some tp =>
          let rc := commaEmit r.1 r.2.2.1
          let ra := argNameEmit rc.1 r.2.2.2.1 r.2.2.2.2
          visualizeTypePackAnnot tp false ra.1
        | none => r.1
      let w :=
        match closePos with
        | some p => advance w p
        | none => w
      symbolW w [')']
termination_by sizeOf list
decreasing_by all_goals (simp_wf <;> omega)

/-- The element loop of `visualizeNamedTypeList` (lines 402-409), returning
the final inserter states `(writer, first, commas, argNames, colons)`. -/
def namedListLoop (types : List AstType) (first : Bool) (commas : Option (List Position))
    (argNames : Option (List (Option ArgName))) (colons : Option (List (Option Position)))
    (w : StringWriter) :
    StringWriter × Bool × Option (List Position) × Option (List (Option ArgName)) ×
      Option (List (Option Position)) :=
  match types with
  | [] => (w, first, commas, argNames, colons)
  | t :: rest =>
    let wc := if first then (w, commas) else commaEmit w commas
    let ra := argNameEmit wc.1 argNames colons
    let w := visualizeTypeAnnot t ra.1
    namedListLoop rest false wc.2 ra.2.1 ra.2.2 w
termination_by sizeOf types
decreasing_by all_goals (simp_wf <;> omega)

/-- The general union loop (lines 1580-1597): `|` separators with
`maybeSpace` reserve 2, parenthesizing intersection and function members. -/
def unionJoin (ts : List AstType) (first : Bool) (w : StringWriter) : StringWriter :=
  match ts with
  | [] => w
  | t :: rest =>
    let w := if first then w else symbolW (maybeSpace w t.loc.b 2) ['|']
    let wrap := isInterType t || isFnType t
    let w := if wrap then symbolW w ['('] else w
    let w := visualizeTypeAnnot t w
    let w := if wrap then symbolW w [')'] else w
    unionJoin rest false w
termination_by sizeOf ts
decreasing_by all_goals (simp_wf <;> omega)

/-- The intersection loop (lines 1599-1619): `&` separators with `maybeSpace`
reserve 2, parenthesizing union and function members. -/
def interJoin (ts : List AstType) (first : Bool) (w : StringWriter) : StringWriter :=
  match ts with
  | [] => w
  | t :: rest =>
    let w := if first then w else symbolW (maybeSpace w t.loc.b 2) ['&']
    let wrap := isUnionType t || isFnType t
    let w := if wrap then symbolW w ['('] else w
    let w := visualizeTypeAnnot t w
    let w := if wrap then symbolW w [')'] else w
    interJoin rest false w
termination_by sizeOf ts
decreasing_by all_goals (simp_wf <;> omega)

end

/-! ## Expressions (§3.2; AstExpr node family)

Constructors modelled: group, the nil/bool/string constants, local and
global references, varargs, table literals, unary and binary operators.
(Numbers, calls, indexing, function literals, if-else expressions,
interpolated strings and error recovery nodes are not modelled; constant
numbers are settled separately, see the claims about `isIntegerish`.) -/

inductive UnaryOp where
  | notOp
  | minus
  | len
deriving DecidableEq, Repr

inductive BinaryOp where
  | add | sub | mul | div | floorDiv | mod | pow
  | concat | compareNe | compareEq | compareLt | compareLe | compareGt | compareGe
  | andOp | orOp
deriving DecidableEq, Repr

/-- Modelled from the spec: `toString(AstExprBinary::Op)` lives in Ast.cpp,
outside the provided sources; the spellings are the spec's §6 token table
(`and`, `or`, `==`, `~=`, `<=`, `>=`, `..`, and the single-character
arithmetic and ordering operators). -/
def binOpToString : BinaryOp → List Char
  | .add => "+".data
  | .sub => "-".data
  | .mul => "*".data
  | .div => "/".data
  | .floorDiv => "//".data
  | .mod => "%".data
  | .pow => "^".data
  | .concat => "..".data
  | .compareNe => "~=".data
  | .compareEq => "==".data
  | .compareLt => "<".data
  | .compareLe => "<=".data
  | .compareGt => ">".data
  | .compareGe => ">=".data
  | .andOp => "and".data
  | .orOp => "or".data

/-- The `maybeSpace` reserve chosen for each operator when no CST record is
present (Transpiler.cpp lines 688-717). -/
def binOpReserve : BinaryOp → Nat
  | .add | .sub | .mul | .div | .floorDiv | .mod | .pow | .compareLt | .compareGt => 2
  | .concat | .compareNe | .compareEq | .compareLe | .compareGe | .orOp => 3
  | .andOp => 4

/-- Table item separators (Cst.h lines 146-150). -/
inductive Separator where
  | comma
  | semicolon
deriving DecidableEq, Repr

/-- `CstExprTable::Item` (Cst.h lines 152-160). -/
structure CstTableItemRec where
  indexerOpenLoc : Option Location
  indexerCloseLoc : Option Location
  equalsLoc : Option Location
  separator : Option Separator
  separatorLoc : Option Location
deriving DecidableEq, Repr

/-- `AstExprTable::Item::Kind`. -/
inductive TableItemKind where
  | list
  | record
  | general
deriving DecidableEq, Repr

mutual
inductive AstExpr where
  | group (loc : Location) (inner : AstExpr)
  | constantNil (loc : Location)
  | constantBool (loc : Location) (value : Bool)
  | constantString (loc : Location) (value : List Char) (cst : Option CstStringRec)
  | localRef (loc : Location) (name : List Char)
  | globalRef (loc : Location) (name : List Char)
  | varargs (loc : Location)
  | table (loc : Location) (items : List TableItem) (cst : Option (List CstTableItemRec))
  | unary (loc : Location) (op : UnaryOp) (operand : AstExpr) (cstOpPosition : Option Position)
  | binary (loc : Location) (op : BinaryOp) (left right : AstExpr)
      (cstOpPosition : Option Position)

inductive TableItem where
  | mk (kind : TableItemKind) (key : Option AstExpr) (value : AstExpr)
end

def AstExpr.loc : AstExpr → Location
  | .group l _ => l
  | .constantNil l => l
  | .constantBool l _ => l
  | .constantString l .. => l
  | .localRef l _ => l
  | .globalRef l _ => l
  | .varargs l => l
  | .table l .. => l
  | .unary l .. => l
  | .binary l .. => l

def TableItem.value : TableItem → AstExpr
  | .mk _ _ v => v

/-- The current CST table item, `*cstItem` (null pointer or exhausted array
give `none`; the latter is past-the-end undefined behaviour in C++). -/
def tiCstHead : Option (List CstTableItemRec) → Option CstTableItemRec
  | some (ci :: _) => some ci
  | _ => none

/-- The CST pointer increment, `cstItem++`. -/
def tiCstTail : Option (List CstTableItemRec) → Option (List CstTableItemRec)
  | some (_ :: rest) => some rest
  | other => other

/-- `item.key->as<AstExprConstantString>()` for a record item's key. -/
def tiRecordKey : Option AstExpr → Option (Location × List Char)
  | some (.constantString kloc kval _) => some (kloc, kval)
  | _ => none

/-- Advance to an optional recorded location's begin. -/
def tiAdvanceLoc (w : StringWriter) : Option Location → StringWriter
  | some l => advance w l.b
  | none => w

/-- Emit the recorded separator, if any (lines 645-649). -/
def tiSeparator (w : StringWriter) : Option Separator → StringWriter
  | some .comma => symbolW w [',']
  | some .semicolon => symbolW w [';']
  | none => w

mutual

/-- `Printer::visualize(AstExpr&)` (Transpiler.cpp lines 437-784), restricted
to the modelled node kinds. -/
def visualizeExpr (e : AstExpr) (w : StringWriter) : StringWriter :=
  let w := advance w e.loc.b
  match e with
  | .group loc inner =>
    let w := symbolW w ['(']
    let w := visualizeExpr inner w
    -- advance(Position{a->location.end.line, a->location.end.column - 1}):
    -- the column subtraction is unsigned and unguarded.
    let w := advance w ⟨loc.e.line, subU32 loc.e.column 1⟩
    symbolW w [')']
  | .constantNil _ => keyword w "nil".data
  | .constantBool _ v => keyword w (if v then "true".data else "false".data)
  | .constantString _ v cst =>
    match cst with
    | some c => sourceStringW w c.sourceString c.quoteStyle c.blockDepth
    | none => stringW w v
  | .localRef _ name => identifier w name
  | .globalRef _ name => identifier w name
  | .varargs _ => symbolW w "...".data
  | .table loc items cst =>
    let w := symbolW w ['\x7b']
    let w := tableItemsLoop items true cst w
    -- Position endPos = expr.location.end; if (endPos.column > 0) --endPos.column;
    let endPos : Position :=
      if loc.e.column > 0 then ⟨loc.e.line, loc.e.column - 1⟩ else loc.e
    let w := advance w endPos
    let w := symbolW w ['\x7d']
    advance w loc.e
  | .unary _ op operand cstOpPosition =>
    let w :=
      match cstOpPosition with
      | some p => advance w p
      | none => w
    let w :=
      match op with
      | .notOp => keyword w "not".data
      | .minus => symbolW w ['-']
      | .len => symbolW w ['#']
    visualizeExpr operand w
  | .binary _ op left right cstOpPosition =>
    let w := visualizeExpr left w
    let w :=
      match cstOpPosition with
      | some p => advance w p
      | none => maybeSpace w right.loc.b (binOpReserve op)
    let w := symbolW w (binOpToString op)
    visualizeExpr right w
termination_by sizeOf e
decreasing_by all_goals (simp_wf <;> omega)

/-- The table item loop (lines 591-652). The CST pointer, when present,
walks in lockstep with the AST items; `tiCstHead`/`tiCstTail` model the
current pointee and the pointer increment, and the comma fallback applies
only when the CST record is absent. The record case reads
`item.key->as<AstExprConstantString>()->value` — an unchecked downcast; a
non-string key is undefined behaviour in the source (`tiRecordKey` returns
`none` and nothing is emitted for it). The source dereferences the optional
locations of the current CST item without a presence check; an absent
location (undefined behaviour in C++) is modelled as emitting no advance. -/
def tableItemsLoop (items : List TableItem) (first : Bool)
    (cstItems : Option (List CstTableItemRec)) (w : StringWriter) : StringWriter :=
  match items with
  | [] => w
  | item :: rest =>
    tableItemsLoop rest false (tiCstTail cstItems) (tableItem1 item first cstItems w)
termination_by sizeOf items
decreasing_by all_goals (simp_wf <;> omega)

/-- The body of one iteration of the table item loop (lines 593-651):
comma fallback, the kind switch, the value, the recorded separator. -/
def tableItem1 (item : TableItem) (first : Bool)
    (cstItems : Option (List CstTableItemRec)) (w : StringWriter) : StringWriter :=
  match item with
  | .mk kind key value =>
    let ci := tiCstHead cstItems
    let w :=
      if cstItems.isSome then w
      else if first then w
      else symbolW w [',']
    let w :=
      match kind with
      | .list => w
      | .record =>
        let w :=
          match tiRecordKey key with
          | some kl => identifier (advance w kl.1.b) kl.2
          | none => w
        let w :=
          match ci with
          | some c => tiAdvanceLoc w c.equalsLoc
          | none => maybeSpace w value.loc.b 1
        symbolW w ['=']
      | .general =>
        let w :=
          match ci with
          | some c => tiAdvanceLoc w c.indexerOpenLoc
          | none => w
        let w := symbolW w ['[']
        let w :=
          match key with
          | some k => visualizeExpr k w
          | none => w
        let w :=
          match ci with
          | some c => tiAdvanceLoc w c.indexerCloseLoc
          | none => w
        let w := symbolW w [']']
        let w :=
          match ci with
          | some c => tiAdvanceLoc w c.equalsLoc
          | none => maybeSpace w value.loc.b 1
        symbolW w ['=']
    let w := advance w value.loc.b
    let w := visualizeExpr value w
    match ci with
    | some c => tiSeparator (tiAdvanceLoc w c.separatorLoc) c.separator
    | none => w
termination_by sizeOf item
decreasing_by all_goals (simp_wf <;> omega)

end

/-! ## Statements (§3.2; AstStat node family)

Constructors modelled: block, local declarations and expression statements —
the kinds the claims reach. Every statement carries the `hasSemicolon`
flag of the source's `AstStat`. -/

/-- `AstLocal`: a local binding with optional type annotation. -/
structure AstLocalVar where
  loc : Location
  name : List Char
  annot : Option AstType

/-- `CstStatLocal` (Cst.h lines 198-207). -/
structure CstStatLocalRec where
  varsCommaPositions : List Position
  valuesCommaPositions : List Position
deriving DecidableEq, Repr

inductive AstStat where
  | block (loc : Location) (hasSemicolon : Bool) (body : List AstStat)
      (cstEndPosition : Option Position)
  | localStat (loc : Location) (hasSemicolon : Bool) (vars : List AstLocalVar)
      (equalsSignLocation : Option Location) (values : List AstExpr)
      (cst : Option CstStatLocalRec)
  | exprStat (loc : Location) (hasSemicolon : Bool) (e : AstExpr)

def AstStat.loc : AstStat → Location
  | .block l .. => l
  | .localStat l .. => l
  | .exprStat l .. => l

def AstStat.hasSemicolon : AstStat → Bool
  | .block _ h .. => h
  | .localStat _ h .. => h
  | .exprStat _ h _ => h

/-- `Printer::visualize(AstLocal&)` (lines 310-320). -/
def visualizeLocalVar (wt : Bool) (v : AstLocalVar) (w : StringWriter) : StringWriter :=
  let w := advance w v.loc.b
  let w := identifier w v.name
  match wt, v.annot with
  | true, some a => visualizeTypeAnnot a (symbolW w [':'])
  | _, _ => w

/-- The comma-separated loop over the variables of a local declaration
(lines 875-880). -/
def localVarsLoop (wt : Bool) (vars : List AstLocalVar) (first : Bool)
    (commas : Option (List Position)) (w : StringWriter) : StringWriter :=
  match vars with
  | [] => w
  | v :: rest =>
    let wc := if first then (w, commas) else commaEmit w commas
    let w := visualizeLocalVar wt v wc.1
    localVarsLoop wt rest false wc.2 w

/-- A comma-separated loop over expressions (e.g. the values of a local
declaration, lines 889-894). -/
def exprCommaLoop (es : List AstExpr) (first : Bool) (commas : Option (List Position))
    (w : StringWriter) : StringWriter :=
  match es with
  | [] => w
  | e :: rest =>
    let wc := if first then (w, commas) else commaEmit w commas
    let w := visualizeExpr e wc.1
    exprCommaLoop rest false wc.2 w

/-- `Printer::writeEnd` (lines 786-793): back the target column off by three
only when the end column is at least three. -/
def writeEnd (loc : Location) (w : StringWriter) : StringWriter :=
  let endPos : Position :=
    if loc.e.column ≥ 3 then ⟨loc.e.line, loc.e.column - 3⟩ else loc.e
  keyword (advance w endPos) "end".data

mutual

/-- `Printer::visualize(AstStat&)` (lines 800-1169), restricted to the
modelled statement kinds, including the trailing-semicolon emission whose
column subtraction is unsigned and unguarded. -/
def visualizeStat (wt : Bool) (s : AstStat) (w : StringWriter) : StringWriter :=
  let w := advance w s.loc.b
  let w :=
    match s with
    | .block loc _ body cstEnd =>
      let w := keyword w "do".data
      let w := statListLoop wt body w
      match cstEnd with
      | some p => keyword (advance w p) "end".data
      | none => writeEnd loc w
    | .localStat _ _ vars equalsSignLocation values cst =>
      let w := keyword w "local".data
      let w := localVarsLoop wt vars true
        (match cst with
         | some c => some c.varsCommaPositions
         | none => none) w
      let w :=
        match equalsSignLocation with
        | some el => symbolW (advance w el.b) ['=']
        | none => w
      exprCommaLoop values true
        (match cst with
         | some c => some c.valuesCommaPositions
         | none => none) w
    | .exprStat _ _ e => visualizeExpr e w
  if s.hasSemicolon then
    symbolW (advance w ⟨s.loc.e.line, subU32 s.loc.e.column 1⟩) [';']
  else w
termination_by sizeOf s
decreasing_by all_goals (simp_wf <;> omega)

/-- The statement loop of a block body. -/
def statListLoop (wt : Bool) (stats : List AstStat) (w : StringWriter) : StringWriter :=
  match stats with
  | [] => w
  | s :: rest => statListLoop wt rest (visualizeStat wt s w)
termination_by sizeOf stats
decreasing_by all_goals (simp_wf <;> omega)

end

/-- `Printer::visualizeBlock(AstStatBlock&)` (lines 1256-1261): the body
statements, then advance to the block's end. A non-block argument is
asserted against in the source. -/
def visualizeBlockBody (wt : Bool) (b : AstStat) (w : StringWriter) : StringWriter :=
  match b with
  | .block loc _ body _ => advance (statListLoop wt body w) loc.e
  | _ => w

/-! ## Entry points (lines 1647-1714) -/

/-- `transpile(AstStatBlock&, const CstNodeMap&)` (lines 1670-1675):
fresh writer, `writeTypes = false`. -/
def transpileB (b : AstStat) : StringWriter :=
  visualizeBlockBody false b SW0

/-- `transpileWithTypes(AstStatBlock&, const CstNodeMap&)` (lines
1677-1684): fresh writer, `writeTypes = true`. -/
def transpileWithTypesB (b : AstStat) : StringWriter :=
  visualizeBlockBody true b SW0

/-- A parse error `(location, message)` (§6 input contract). -/
structure ParseError where
  location : Location
  message : String
deriving DecidableEq, Repr

/-- Modelled from the spec (§6): the parser's result `(root, cst-map,
errors)`. The CST side-table is carried inside the modelled AST nodes, so
only the root and the error list appear here. -/
structure ParseResult where
  root : Option AstStat
  errors : List ParseError

/-- Modelled from the spec (§4.7): the parse options forwarded to the
external parser; their content never reaches the printer. -/
structure ParseOptions where
deriving DecidableEq, Repr

/-- `TranspileResult` (§6 output contract): text, or empty text with an
error location and message. -/
structure TranspileResult where
  text : List Char
  errorLoc : Location
  errorMessage : String
deriving DecidableEq, Repr

/-- The body of `transpile(std::string_view source, ...)` after the parser
has produced its result (Transpiler.cpp lines 1698-1713): a nonempty error
list short-circuits with the first error and empty text; a missing root with
no errors yields the internal-error result; otherwise the printer runs. -/
def transpileOfParseResult (pr : ParseResult) (withTypes : Bool) : TranspileResult :=
  match pr.errors with
  | e :: _ => ⟨[], e.location, e.message⟩
  | [] =>
    match pr.root with
    | none => ⟨[], default, "Internal error: Parser yielded empty parse tree"⟩
    | some root =>
      if withTypes then ⟨(transpileWithTypesB root).ss, default, ""⟩
      else ⟨(transpileB root).ss, default, ""⟩

/-- `transpile(std::string_view, ParseOptions, bool)` (lines 1692-1714),
parameterized by the external parser. -/
def transpileSource (parse : String → ParseOptions → ParseResult) (source : String)
    (options : ParseOptions) (withTypes : Bool) : TranspileResult :=
  transpileOfParseResult (parse source options) withTypes

/-! ## The CST RTTI scheme (Cst.h lines 11-102, Cst.cpp)

`CstRtti<T>::value = ++gCstRttiIndex` assigns one fresh integer per template
instantiation `T`; `LUAU_CST_RTTI(Class)` makes `CstClassIndex()` return
`CstRtti<Class>::value`. A node's `classIndex` is set by its constructor to
its class's `CstClassIndex()`, and `is<T>` / `as<T>` compare with
`T::CstClassIndex()`.

`CstExprConstantString` declares `LUAU_CST_RTTI(CstExprConstantNumber)`
(Cst.h line 87), so its macro argument — and therefore its class index — is
`CstExprConstantNumber`'s. -/

/-- The CST classes of Cst.h. -/
inductive CstClass where
  | exprConstantNumber
  | exprConstantString
  | exprCall
  | exprIndexExpr
  | exprFunction
  | exprTable
  | exprOp
  | statDo
  | statReturn
  | statLocal
  | statFor
  | statForIn
  | statAssign
  | statCompoundAssign
  | statLocalFunction
  | statTypeAlias
  | statTypeFunction
deriving DecidableEq, Repr, Fintype

/-- One distinct integer per `CstRtti<T>` instantiation (the order of the
dynamic initializers is immaterial; only injectivity matters). -/
def cstRttiValue : CstClass → Nat
  | .exprConstantNumber => 1
  | .exprConstantString => 2
  | .exprCall => 3
  | .exprIndexExpr => 4
  | .exprFunction => 5
  | .exprTable => 6
  | .exprOp => 7
  | .statDo => 8
  | .statReturn => 9
  | .statLocal => 10
  | .statFor => 11
  | .statForIn => 12
  | .statAssign => 13
  | .statCompoundAssign => 14
  | .statLocalFunction => 15
  | .statTypeAlias => 16
  | .statTypeFunction => 17

/-- The class each class's `LUAU_CST_RTTI` macro names: every class names
itself, except `CstExprConstantString`, which names
`CstExprConstantNumber` (Cst.h line 87). -/
def cstRttiArg : CstClass → CstClass
  | .exprConstantString => .exprConstantNumber
  | c => c

/-- `T::CstClassIndex()`. -/
def cstClassIndex (c : CstClass) : Nat :=
  cstRttiValue (cstRttiArg c)

/-- The payloads of the two constant CST records (Cst.h lines 74-102). The
other classes' payloads are irrelevant here. -/
inductive CstPayload where
  | constantNumber (value : List Char)
  | constantString (sourceString : List Char) (quoteStyle : QuoteStyle) (blockDepth : Nat)
  | other (c : CstClass)
deriving DecidableEq, Repr

/-- A `CstNode`: the `classIndex` set at construction plus the derived
class's data. -/
structure CstNodeG where
  classIndex : Nat
  payload : CstPayload
deriving DecidableEq, Repr

/-- The `CstExprConstantNumber` constructor (Cst.cpp lines 10-14). -/
def mkCstExprConstantNumber (value : List Char) : CstNodeG :=
  ⟨cstClassIndex .exprConstantNumber, .constantNumber value⟩

/-- The `CstExprConstantString` constructor (Cst.cpp lines 16-23). -/
def mkCstExprConstantString (s : List Char) (qs : QuoteStyle) (bd : Nat) : CstNodeG :=
  ⟨cstClassIndex .exprConstantString, .constantString s qs bd⟩

/-- `CstNode::is<T>()` (Cst.h lines 55-59). -/
def cstIs (n : CstNodeG) (t : CstClass) : Bool :=
  n.classIndex == cstClassIndex t

/-- `CstNode::as<T>()` (Cst.h lines 60-64): the static downcast, `none` for
null. -/
def cstAs (n : CstNodeG) (t : CstClass) : Option CstNodeG :=
  if n.classIndex = cstClassIndex t then some n else none

/-- What the constant-number printing path (Transpiler.cpp lines 461-463)
reads from a CST record found in the map:
`c->as<CstExprConstantNumber>()->value`. The downcast checks only the class
index; both `CstExprConstantNumber` and `CstExprConstantString` lay out an
`AstArray<char>` as their first member, so on a string record the
reinterpreted `value` is the record's `sourceString` bytes. A record of any
other class would be reinterpreted blindly (undefined behaviour); that case
is mapped to `none` here, which only strengthens the acceptance statements
proved below. -/
def numberPathLexeme (n : CstNodeG) : Option (List Char) :=
  match cstAs n .exprConstantNumber with
  | none => none
  | some m =>
    match m.payload with
    | .constantNumber v => some v
    | .constantString s _ _ => some s
    | .other _ => none

/-! ## Writer lemmas -/

theorem nlIter_ss (n : Nat) (w : StringWriter) :
    (nlIter n w).ss = w.ss ++ List.replicate n '\n' := by
  induction n generalizing w with
  | zero => simp [nlIter]
  | succ k ih =>
    simp [nlIter, ih, newline, List.replicate_succ, List.append_assoc]

theorem nlIter_line (n : Nat) (w : StringWriter) :
    (nlIter n w).pos.line = w.pos.line + n := by
  induction n generalizing w with
  | zero => simp [nlIter]
  | succ k ih =>
    simp [nlIter, ih, newline]
    omega

theorem nlIter_column (n : Nat) (w : StringWriter) (h : n ≠ 0) :
    (nlIter n w).pos.column = 0 := by
  induction n generalizing w with
  | zero => exact absurd rfl h
  | succ k ih =>
    cases k with
    | zero => simp [nlIter, newline]
    | succ m => simpa [nlIter] using ih (newline w) (by omega)

theorem nlIter_toks (n : Nat) (w : StringWriter) : (nlIter n w).toks = w.toks := by
  induction n generalizing w with
  | zero => simp [nlIter]
  | succ k ih => simp [nlIter, ih, newline]

/-- `advance` is a no-op when the target neither has a later line nor a
later column than the cursor. -/
theorem advance_noop {w : StringWriter} {p : Position}
    (hl : p.line ≤ w.pos.line) (hc : p.column ≤ w.pos.column) : advance w p = w := by
  have h0 : p.line - w.pos.line = 0 := by omega
  simp [advance, h0, nlIter, Nat.not_lt.mpr hc]

theorem Position.ext2 {p q : Position} (h1 : p.line = q.line)
    (h2 : p.column = q.column) : p = q := by
  cases p
  cases q
  simp_all

/-- `advance w p`, with the `let` of the definition spelled out. -/
theorem advance_eq (w : StringWriter) (p : Position) :
    advance w p =
      if (nlIter (p.line - w.pos.line) w).pos.column < p.column then
        writeRaw (nlIter (p.line - w.pos.line) w)
          (List.replicate (p.column - (nlIter (p.line - w.pos.line) w).pos.column) ' ')
      else nlIter (p.line - w.pos.line) w := rfl

/-- `advance` with a later target line: exactly the missing newlines, then
exactly the spaces needed to reach the target column. -/
theorem advance_newlines {w : StringWriter} {p : Position} (h : w.pos.line < p.line) :
    (advance w p).ss =
      w.ss ++ List.replicate (p.line - w.pos.line) '\n' ++ List.replicate p.column ' ' ∧
    (advance w p).pos = p := by
  have hn : p.line - w.pos.line ≠ 0 := by omega
  have hcol := nlIter_column (p.line - w.pos.line) w hn
  have hline := nlIter_line (p.line - w.pos.line) w
  have hss := nlIter_ss (p.line - w.pos.line) w
  rw [advance_eq]
  rcases Nat.eq_zero_or_pos p.column with hp | hp
  · rw [if_neg (by omega)]
    refine ⟨by simp [hss, hp], Position.ext2 (by omega) (by omega)⟩
  · rw [if_pos (by omega)]
    unfold writeRaw
    rw [if_neg (by simp [List.replicate_eq_nil_iff]; omega)]
    refine ⟨by simp [hss, hcol, List.append_assoc], ?_⟩
    exact Position.ext2 (by simp; omega) (by simp [hcol])

/-- `advance` on the same line with a later column: exactly the missing
spaces. -/
theorem advance_pad {w : StringWriter} {p : Position} (hl : w.pos.line = p.line)
    (hc : w.pos.column < p.column) :
    (advance w p).ss = w.ss ++ List.replicate (p.column - w.pos.column) ' ' ∧
    (advance w p).pos = p := by
  have h0 : p.line - w.pos.line = 0 := by omega
  rw [advance_eq]
  simp only [h0, nlIter]
  rw [if_pos hc]
  unfold writeRaw
  rw [if_neg (by simp [List.replicate_eq_nil_iff]; omega)]
  refine ⟨rfl, ?_⟩
  exact Position.ext2 (by simpa using hl) (by simp; omega)

theorem posLe_newline (w : StringWriter) : posLe w.pos (newline w).pos :=
  Or.inl (by simp [newline])

theorem posLe_space (w : StringWriter) : posLe w.pos (space w).pos :=
  Or.inr (by simp [space])

theorem posLe_writeRaw (w : StringWriter) (s : List Char) :
    posLe w.pos (writeRaw w s).pos := by
  unfold writeRaw
  split
  · exact posLe_refl _
  · exact Or.inr (by simp)

theorem posLe_logWrite (w : StringWriter) (s : List Char) :
    posLe w.pos (logWrite w s).pos := by
  unfold logWrite
  split
  · exact posLe_refl _
  · exact Or.inr (by simp)

theorem posLe_nlIter (n : Nat) (w : StringWriter) : posLe w.pos (nlIter n w).pos := by
  cases n with
  | zero => exact posLe_refl _
  | succ k =>
    have h1 := nlIter_line (k + 1) w
    exact Or.inl (by omega)

theorem posLe_advance (w : StringWriter) (p : Position) :
    posLe w.pos (advance w p).pos := by
  rw [advance_eq]
  split
  · exact posLe_trans (posLe_nlIter _ w) (posLe_writeRaw _ _)
  · exact posLe_nlIter _ w

theorem posLe_maybeSpace (w : StringWriter) (p : Position) (r : Nat) :
    posLe w.pos (maybeSpace w p r).pos := by
  unfold maybeSpace
  split
  · exact posLe_space w
  · exact posLe_refl _

theorem posLe_identifier (w : StringWriter) (s : List Char) :
    posLe w.pos (identifier w s).pos := by
  unfold identifier
  split
  · exact posLe_refl _
  · split
    · exact posLe_trans (posLe_space w) (posLe_logWrite _ _)
    · exact posLe_logWrite _ _

theorem posLe_keyword (w : StringWriter) (s : List Char) :
    posLe w.pos (keyword w s).pos := by
  unfold keyword
  split
  · exact posLe_refl _
  · split
    · exact posLe_trans (posLe_space w) (posLe_logWrite _ _)
    · exact posLe_logWrite _ _

theorem posLe_literal (w : StringWriter) (s : List Char) :
    posLe w.pos (literal w s).pos := by
  unfold literal
  split
  · exact posLe_refl _
  · split
    · exact posLe_trans (posLe_space w) (posLe_logWrite _ _)
    · exact posLe_logWrite _ _

theorem posLe_stringW (w : StringWriter) (s : List Char) :
    posLe w.pos (stringW w s).pos := posLe_logWrite _ _

theorem posLe_writeMultiline (w : StringWriter) (s : List Char) :
    posLe w.pos (writeMultiline w s).pos := by
  by_cases h : s = []
  · simp [writeMultiline, h, posLe_refl]
  · by_cases h2 : s.count '\n' = 0
    · refine Or.inr ?_
      simp [writeMultiline, h, h2]
    · refine Or.inl ?_
      simp [writeMultiline, h, h2]
      by_contra hmem
      exact h2 (List.count_eq_zero.mpr hmem)

theorem posLe_sourceStringW (w : StringWriter) (s : List Char) (qs : QuoteStyle)
    (bd : Nat) : posLe w.pos (sourceStringW w s qs bd).pos := by
  unfold sourceStringW
  cases qs <;>
    exact posLe_trans (posLe_writeRaw _ _)
      (posLe_trans (posLe_writeMultiline _ _) (posLe_writeRaw _ _))

/-- `advance` to the origin never moves: both guards fail. -/
theorem advance_origin (w : StringWriter) : advance w ⟨0, 0⟩ = w :=
  advance_noop (Nat.zero_le _) (Nat.zero_le _)

theorem logWrite_ss (w : StringWriter) {s : List Char} (h : s ≠ []) :
    (logWrite w s).ss = w.ss ++ s := by
  simp [logWrite, h]

theorem tableItemsLoop_nil (first : Bool) (cst : Option (List CstTableItemRec))
    (w : StringWriter) : tableItemsLoop [] first cst w = w := by
  rw [tableItemsLoop.eq_def]

theorem visualizeExpr_nil (loc : Location) (w : StringWriter) :
    visualizeExpr (.constantNil loc) w = keyword (advance w loc.b) "nil".data := by
  rw [visualizeExpr.eq_def]
  rfl

/-! ## Claims -/

/-- Claim C7 (amended): `StringWriter::advance` leaves the output buffer and
the cursor unchanged when the target line is at most the cursor line AND the
target column is at most the cursor column (the two guards are independent,
so a target on an earlier line but a later column is not a no-op — see the
counterexample); with a later target line it emits exactly the newlines
needed to reach the target line followed by exactly the spaces needed to
reach the target column; on the same line with a later column it emits
exactly the missing spaces; and no writer operation moves the cursor
lexicographically backward. -/
theorem advance_monotone_spec :
    (∀ (w : StringWriter) (p : Position),
      p.line ≤ w.pos.line → p.column ≤ w.pos.column → advance w p = w) ∧
    (∀ (w : StringWriter) (p : Position), w.pos.line < p.line →
      (advance w p).ss =
        w.ss ++ List.replicate (p.line - w.pos.line) '\n' ++ List.replicate p.column ' ' ∧
      (advance w p).pos = p) ∧
    (∀ (w : StringWriter) (p : Position), w.pos.line = p.line → w.pos.column < p.column →
      (advance w p).ss = w.ss ++ List.replicate (p.column - w.pos.column) ' ' ∧
      (advance w p).pos = p) ∧
    (∀ (w : StringWriter) (p : Position), posLe w.pos (advance w p).pos) ∧
    (∀ w : StringWriter, posLe w.pos (newline w).pos) ∧
    (∀ w : StringWriter, posLe w.pos (space w).pos) ∧
    (∀ (w : StringWriter) (p : Position) (r : Nat), posLe w.pos (maybeSpace w p r).pos) ∧
    (∀ (w : StringWriter) (s : List Char), posLe w.pos (writeRaw w s).pos) ∧
    (∀ (w : StringWriter) (s : List Char), posLe w.pos (logWrite w s).pos) ∧
    (∀ (w : StringWriter) (s : List Char), posLe w.pos (writeMultiline w s).pos) ∧
    (∀ (w : StringWriter) (s : List Char), posLe w.pos (identifier w s).pos) ∧
    (∀ (w : StringWriter) (s : List Char), posLe w.pos (keyword w s).pos) ∧
    (∀ (w : StringWriter) (s : List Char), posLe w.pos (symbolW w s).pos) ∧
    (∀ (w : StringWriter) (s : List Char), posLe w.pos (literal w s).pos) ∧
    (∀ (w : StringWriter) (s : List Char), posLe w.pos (stringW w s).pos) ∧
    (∀ (w : StringWriter) (s : List Char) (qs : QuoteStyle) (bd : Nat),
      posLe w.pos (sourceStringW w s qs bd).pos) :=
  ⟨fun _ _ hl hc => advance_noop hl hc,
   fun _ _ h => advance_newlines h,
   fun _ _ hl hc => advance_pad hl hc,
   posLe_advance, posLe_newline, posLe_space, posLe_maybeSpace, posLe_writeRaw,
   posLe_logWrite, posLe_writeMultiline, posLe_identifier, posLe_keyword,
   (fun w s => posLe_logWrite w s), posLe_literal, posLe_stringW, posLe_sourceStringW⟩

/-- Claim C7 witness: the no-op case at cursor `(2,7)`, target `(1,3)`, and
the newline case at cursor `(0,0)`, target `(2,3)`. -/
theorem advance_monotone_spec_witness :
    advance ⟨['x'], ⟨2, 7⟩, 'x', []⟩ ⟨1, 3⟩ = ⟨['x'], ⟨2, 7⟩, 'x', []⟩ ∧
    (advance ⟨[], ⟨0, 0⟩, 'x', []⟩ ⟨2, 3⟩).ss =
      [] ++ List.replicate 2 '\n' ++ List.replicate 3 ' ' :=
  ⟨advance_monotone_spec.1 ⟨['x'], ⟨2, 7⟩, 'x', []⟩ ⟨1, 3⟩ (by decide) (by decide),
   (advance_monotone_spec.2.1 ⟨[], ⟨0, 0⟩, 'x', []⟩ ⟨2, 3⟩ (by decide)).1⟩

/-- Claim C7 counterexample: target `(3,20)` is not strictly ahead of cursor
`(5,10)` in the claim's sense (its line is earlier), yet `advance` writes
ten spaces: the column check is independent of the line check. -/
theorem advance_earlier_line_still_pads :
    (3 : Nat) < 5 ∧
    (advance ⟨[], ⟨5, 10⟩, 'x', []⟩ ⟨3, 20⟩).ss = List.replicate 10 ' ' ∧
    advance ⟨[], ⟨5, 10⟩, 'x', []⟩ ⟨3, 20⟩ ≠ ⟨[], ⟨5, 10⟩, 'x', []⟩ := by
  refine ⟨by norm_num, by decide, by decide⟩

/-- Claim C10: the group expression's closing parenthesis and the trailing
semicolon compute their target column as `end.column - 1` in unsigned
arithmetic with no zero guard, so a node whose end column is `0` makes the
printer pad to column `2^32 - 1`: the printed group `(nil)` with end
position `(0,0)` and the statement `nil;` with end position `(0,0)` each
produce exactly `2^32` characters of output. The table literal's closing
brace (guarded by `end.column > 0`) and the `end` keyword (guarded by
`end.column >= 3`) do not wrap on the same degenerate positions. -/
theorem closing_token_column_wraparound :
    (visualizeExpr (.group ⟨⟨0, 0⟩, ⟨0, 0⟩⟩ (.constantNil ⟨⟨0, 0⟩, ⟨0, 0⟩⟩)) SW0).ss.length =
      2 ^ 32 ∧
    (visualizeStat false (.exprStat ⟨⟨0, 0⟩, ⟨0, 0⟩⟩ true (.constantNil ⟨⟨0, 0⟩, ⟨0, 0⟩⟩))
        SW0).ss.length = 2 ^ 32 ∧
    (visualizeExpr (.table ⟨⟨0, 0⟩, ⟨0, 0⟩⟩ [] none) SW0).ss = ['\x7b', '\x7d'] ∧
    (writeEnd ⟨⟨0, 0⟩, ⟨0, 2⟩⟩ SW0).ss = "  end".data ∧
    subU32 0 1 = 2 ^ 32 - 1 := by
  refine ⟨?_, ?_, ?_, by decide, by decide⟩
  · have h0 : visualizeExpr (.group ⟨⟨0, 0⟩, ⟨0, 0⟩⟩ (.constantNil ⟨⟨0, 0⟩, ⟨0, 0⟩⟩)) SW0
        = symbolW (advance (keyword (symbolW SW0 ['(']) "nil".data) ⟨0, subU32 0 1⟩) [')'] := by
      rw [visualizeExpr.eq_def]
      simp only [AstExpr.loc, advance_origin, visualizeExpr_nil]
    have hwmid : keyword (symbolW SW0 ['(']) "nil".data
        = ⟨"(nil".data, ⟨0, 4⟩, 'l', [(0, ['(']), (1, "nil".data)]⟩ := by decide
    have hpad := advance_pad
      (w := (⟨"(nil".data, ⟨0, 4⟩, 'l', [(0, ['(']), (1, "nil".data)]⟩ : StringWriter))
      (p := ⟨0, subU32 0 1⟩) rfl (by rw [subU32_zero_one]; norm_num)
    rw [h0, hwmid]
    show (logWrite _ [')']).ss.length = 2 ^ 32
    rw [logWrite_ss _ (by decide), hpad.1]
    rw [List.length_append, List.length_append, List.length_replicate, subU32_zero_one]
    norm_num
  · have h0 : visualizeStat false
        (.exprStat ⟨⟨0, 0⟩, ⟨0, 0⟩⟩ true (.constantNil ⟨⟨0, 0⟩, ⟨0, 0⟩⟩)) SW0
        = symbolW (advance (keyword SW0 "nil".data) ⟨0, subU32 0 1⟩) [';'] := by
      rw [visualizeStat.eq_def]
      simp only [AstStat.loc, AstStat.hasSemicolon, advance_origin, visualizeExpr_nil]
      rw [if_pos True.intro]
    have hw : keyword SW0 "nil".data = ⟨"nil".data, ⟨0, 3⟩, 'l', [(0, "nil".data)]⟩ := by
      decide
    have hpad := advance_pad
      (w := (⟨"nil".data, ⟨0, 3⟩, 'l', [(0, "nil".data)]⟩ : StringWriter))
      (p := ⟨0, subU32 0 1⟩) rfl (by rw [subU32_zero_one]; norm_num)
    rw [h0, hw]
    show (logWrite _ [';']).ss.length = 2 ^ 32
    rw [logWrite_ss _ (by decide), hpad.1]
    rw [List.length_append, List.length_append, List.length_replicate, subU32_zero_one]
    norm_num
  · rw [visualizeExpr.eq_def]
    simp only [AstExpr.loc]
    rw [tableItemsLoop_nil]
    rw [show (if 0 > 0 then ({ line := 0, column := 0 - 1 } : Position)
        else { line := 0, column := 0 }) = ⟨0, 0⟩ from by decide]
    rw [advance_origin, advance_origin, advance_origin]
    decide

/-- Claim C2: when the parser reports at least one error, `transpile`
returns a result whose text is empty and whose location and message are the
first error's, and the printer never runs — the result does not depend on
the parse tree at all. -/
theorem transpile_parse_error_passthrough :
    (∀ (parse : String → ParseOptions → ParseResult) (source : String)
        (options : ParseOptions) (withTypes : Bool),
      (parse source options).errors ≠ [] →
      ∃ e rest, (parse source options).errors = e :: rest ∧
        transpileSource parse source options withTypes = ⟨[], e.location, e.message⟩) ∧
    (∀ (pr : ParseResult) (root2 : Option AstStat) (withTypes : Bool), pr.errors ≠ [] →
      transpileOfParseResult ⟨root2, pr.errors⟩ withTypes =
        transpileOfParseResult pr withTypes) := by
  constructor
  · intro parse source options withTypes h
    match hpr : (parse source options).errors with
    | [] => exact absurd hpr h
    | e :: rest =>
      exact ⟨e, rest, rfl, by simp [transpileSource, transpileOfParseResult, hpr]⟩
  · intro pr root2 withTypes h
    match hpr : pr.errors with
    | [] => exact absurd hpr h
    | e :: rest => simp [transpileOfParseResult, hpr]

/-- Claim C2 witness: a parser that fails on `local 1x = 2` with one error
at `(0,6)-(0,8)`; the transpile result carries exactly that error and empty
text (spec §8 scenario 6). -/
theorem transpile_parse_error_passthrough_witness :
    transpileSource
      (fun _ _ => ⟨none, [⟨⟨⟨0, 6⟩, ⟨0, 8⟩⟩, "Malformed number"⟩]⟩)
      "local 1x = 2" ⟨⟩ true
      = ⟨[], ⟨⟨0, 6⟩, ⟨0, 8⟩⟩, "Malformed number"⟩ := by
  obtain ⟨e, rest, h1, h2⟩ := transpile_parse_error_passthrough.1
    (fun _ _ => ⟨none, [⟨⟨⟨0, 6⟩, ⟨0, 8⟩⟩, "Malformed number"⟩]⟩)
    "local 1x = 2" ⟨⟩ true (by simp)
  cases h1
  exact h2

/-- Claim C3 (amended): with no parse errors and a null root, `transpile`
returns empty text and the message `"Internal error: Parser yielded empty
parse tree"` — spelled with a capital `I` and a capital `P` in the source,
not the lowercase spelling the claim states. -/
theorem transpile_empty_tree_internal_error :
    ∀ (pr : ParseResult) (withTypes : Bool), pr.errors = [] → pr.root = none →
      transpileOfParseResult pr withTypes =
        ⟨[], default, "Internal error: Parser yielded empty parse tree"⟩ := by
  intro pr withTypes he hr
  simp [transpileOfParseResult, he, hr]

/-- Claim C3 witness: the empty-tree result at a concrete parse result. -/
theorem transpile_empty_tree_internal_error_witness :
    transpileOfParseResult ⟨none, []⟩ true =
      ⟨[], default, "Internal error: Parser yielded empty parse tree"⟩ :=
  transpile_empty_tree_internal_error ⟨none, []⟩ true rfl rfl

/-- Claim C3 counterexample: the text is empty as claimed, but the message
of Transpiler.cpp line 1708 is not the claimed all-lowercase
`"internal error: parser yielded empty parse tree"`. -/
theorem transpile_empty_tree_message_not_lowercase :
    (transpileOfParseResult ⟨none, []⟩ true).text = [] ∧
    (transpileOfParseResult ⟨none, []⟩ true).errorMessage ≠
      "internal error: parser yielded empty parse tree" := by
  exact ⟨rfl, by decide⟩

/-- Claim C9: `CstExprConstantString` registers its class index through
`LUAU_CST_RTTI(CstExprConstantNumber)`, so every constructed string record
satisfies `is<CstExprConstantNumber>()`, its `as<CstExprConstantNumber>()`
downcast is non-null, and the constant-number printing path would read the
string record's first field — the raw `sourceString` bytes — as the numeric
lexeme; all other pairs of distinct CST classes keep distinct indices. -/
theorem cst_string_rtti_collision :
    (∀ (s : List Char) (qs : QuoteStyle) (bd : Nat),
      cstIs (mkCstExprConstantString s qs bd) .exprConstantNumber = true ∧
      (cstAs (mkCstExprConstantString s qs bd) .exprConstantNumber).isSome = true ∧
      numberPathLexeme (mkCstExprConstantString s qs bd) = some s) ∧
    cstClassIndex .exprConstantString = cstClassIndex .exprConstantNumber ∧
    (∀ c1 c2 : CstClass, cstClassIndex c1 = cstClassIndex c2 →
      c1 = c2 ∨ (c1 = .exprConstantString ∧ c2 = .exprConstantNumber) ∨
        (c1 = .exprConstantNumber ∧ c2 = .exprConstantString)) := by
  refine ⟨?_, by decide, by decide⟩
  intro s qs bd
  exact ⟨rfl, rfl, rfl⟩

/-- Claim C9 witness: a string record whose payload is the lexeme-like text
`1.5` passes the number path's downcast and is read back as `1.5`. -/
theorem cst_string_rtti_collision_witness :
    cstIs (mkCstExprConstantString "1.5".data .quotedSingle 0) .exprConstantNumber = true ∧
    numberPathLexeme (mkCstExprConstantString "1.5".data .quotedSingle 0) =
      some "1.5".data :=
  ⟨(cst_string_rtti_collision.1 "1.5".data .quotedSingle 0).1,
   (cst_string_rtti_collision.1 "1.5".data .quotedSingle 0).2.2⟩

/-! ### Claim C4: quote choice for constant strings without a CST record

The statement `local s = "it's"` of the claim, with source positions as in
that line and no CST records anywhere. -/

def c4stat : AstStat :=
  .localStat ⟨⟨0, 0⟩, ⟨0, 16⟩⟩ false
    [⟨⟨⟨0, 6⟩, ⟨0, 7⟩⟩, "s".data, none⟩]
    (some ⟨⟨0, 8⟩, ⟨0, 9⟩⟩)
    [.constantString ⟨⟨0, 10⟩, ⟨0, 16⟩⟩ "it's".data none]
    none

def c4block : AstStat := .block ⟨⟨0, 0⟩, ⟨0, 16⟩⟩ false [c4stat] none

/-- Claim C4 counterexample: with the CST record absent, printing
`local s = "it's"` does NOT yield the claimed single-quoted
`local s = 'it\'s'` — `StringWriter::string` switches to double quotes
exactly when the payload contains a single quote (Transpiler.cpp lines
184-186). -/
theorem local_its_not_single_quoted :
    (transpileB c4block).ss ≠ "local s = 'it\\'s'".data := by
  have h : (transpileB c4block).ss = "local s = \"it\\'s\"".data := by
    simp +decide [transpileB, visualizeBlockBody, statListLoop, visualizeStat, c4block, c4stat,
      localVarsLoop, visualizeLocalVar, exprCommaLoop, visualizeExpr, AstStat.loc,
      AstStat.hasSemicolon, AstExpr.loc, stringW, escape, escapeOne, advance, nlIter, writeRaw,
      logWrite, symbolW, identifier, keyword, SW0, isIdentifierChar, isIdentifierStartChar,
      isDigit]
  rw [h]
  decide

/-- Claim C4 (amended): a constant string printed without a CST record whose
payload contains a single quote is emitted DOUBLE-quoted, with the payload
conventionally escaped (so the inner quote still carries a backslash under
the modelled external `escape`): `local s = "it's"` prints as
`local s = "it\'s"`. -/
theorem string_single_quote_payload_double_quoted :
    (∀ (w : StringWriter) (s : List Char), s.contains '\'' = true →
      (stringW w s).ss = w.ss ++ '"' :: (escape s false ++ ['"'])) ∧
    (transpileB c4block).ss = "local s = \"it\\'s\"".data := by
  constructor
  · intro w s h
    have hm : '\'' ∈ s := by simpa using h
    simp [stringW, h, hm, logWrite]
  · simp +decide [transpileB, visualizeBlockBody, statListLoop, visualizeStat, c4block, c4stat,
      localVarsLoop, visualizeLocalVar, exprCommaLoop, visualizeExpr, AstStat.loc,
      AstStat.hasSemicolon, AstExpr.loc, stringW, escape, escapeOne, advance, nlIter, writeRaw,
      logWrite, symbolW, identifier, keyword, SW0, isIdentifierChar, isIdentifierStartChar,
      isDigit]

/-- Claim C4 witness: the quote-choice rule applied to the payload `it's`
on a fresh writer. -/
theorem string_single_quote_payload_double_quoted_witness :
    (stringW SW0 "it's".data).ss = SW0.ss ++ '"' :: (escape "it's".data false ++ ['"']) :=
  string_single_quote_payload_double_quoted.1 SW0 "it's".data (by decide)

/-! ### Claim C6: the nullable-union contraction

Spec-side renderings, written from the claim's words: the contracted form
renders only the chosen member — parenthesized exactly when it is an
intersection or a function type — followed by `?`; the joined form renders
every member (with the same parenthesization rule) separated by `|`. -/

/-- One union member with the parenthesize-if-intersection-or-function
rule. -/
def unionMember (t : AstType) (w : StringWriter) : StringWriter :=
  let wrap := isInterType t || isFnType t
  let w := if wrap then symbolW w ['('] else w
  let w := visualizeTypeAnnot t w
  if wrap then symbolW w [')'] else w

/-- The claim's contracted `T?` rendering. -/
def renderNullable (m : AstType) (loc : Location) (w : StringWriter) : StringWriter :=
  symbolW (unionMember m (advance w loc.b)) ['?']

/-- The members after the first, each preceded by `|`. -/
def renderUnionTail (ts : List AstType) (w : StringWriter) : StringWriter :=
  ts.foldl (fun w t => unionMember t (symbolW (maybeSpace w t.loc.b 2) ['|'])) w

/-- The claim's uncontracted rendering: all members joined with `|`. -/
def renderUnionJoined (loc : Location) (ts : List AstType) (w : StringWriter) : StringWriter :=
  match ts with
  | [] => advance w loc.b
  | t :: rest => renderUnionTail rest (unionMember t (advance w loc.b))

theorem unionJoin_false (ts : List AstType) (w : StringWriter) :
    unionJoin ts false w = renderUnionTail ts w := by
  induction ts generalizing w with
  | nil => rw [unionJoin.eq_def]; rfl
  | cons t rest ih =>
    rw [unionJoin.eq_def]
    simp only [renderUnionTail, List.foldl_cons, Bool.false_eq_true, if_false, ih]
    rfl

theorem unionJoin_true (t : AstType) (rest : List AstType) (w : StringWriter) :
    unionJoin (t :: rest) true w = renderUnionTail rest (unionMember t w) := by
  rw [unionJoin.eq_def]
  simp only [if_true]
  rw [unionJoin_false]
  rfl

/-- Claim C6: a union of exactly two members of which one is a reference
named `nil` — in either position — prints as the other member (the second
one when both are nil-named) parenthesized iff it is an intersection or a
function type, followed by `?`; a union of three or more members is never
contracted and is joined with `|`. -/
theorem union_nil_contraction :
    (∀ (loc : Location) (t0 t1 : AstType) (w : StringWriter),
      isNilRef t0 = true ∨ isNilRef t1 = true →
      visualizeTypeAnnot (.union loc [t0, t1]) w =
        renderNullable (if isNilRef t0 then t1 else t0) loc w) ∧
    (∀ (loc : Location) (ts : List AstType) (w : StringWriter), 3 ≤ ts.length →
      visualizeTypeAnnot (.union loc ts) w = renderUnionJoined loc ts w) := by
  constructor
  · intro loc t0 t1 w h
    rw [visualizeTypeAnnot.eq_def]
    simp only [AstType.loc]
    by_cases h0 : isNilRef t0
    · simp [h0, renderNullable, unionMember]
    · have h1 : isNilRef t1 = true := h.resolve_left h0
      simp [h0, h1, renderNullable, unionMember]
  · intro loc ts w h
    match ts with
    | a :: b :: c :: rest =>
      rw [visualizeTypeAnnot.eq_def]
      simp only [AstType.loc]
      rw [unionJoin_true]
      rfl

def c6refT : AstType := .ref ⟨⟨0, 0⟩, ⟨0, 0⟩⟩ none ⟨⟨0, 0⟩, ⟨0, 0⟩⟩ "T".data [] false none

def c6refNil : AstType :=
  .ref ⟨⟨0, 0⟩, ⟨0, 0⟩⟩ none ⟨⟨0, 0⟩, ⟨0, 0⟩⟩ "nil".data [] false none

/-- Claim C6 witness: `T | nil` contracts, and the contracted form prints
exactly `T?` (spec §8 scenario 4). -/
theorem union_nil_contraction_witness :
    visualizeTypeAnnot (.union ⟨⟨0, 0⟩, ⟨0, 0⟩⟩ [c6refT, c6refNil]) SW0
      = renderNullable c6refT ⟨⟨0, 0⟩, ⟨0, 0⟩⟩ SW0 ∧
    (renderNullable c6refT ⟨⟨0, 0⟩, ⟨0, 0⟩⟩ SW0).ss = "T?".data := by
  constructor
  · have h := union_nil_contraction.1 ⟨⟨0, 0⟩, ⟨0, 0⟩⟩ c6refT c6refNil SW0
      (Or.inr (by simp +decide [c6refNil, isNilRef]))
    rw [show (if isNilRef c6refT then c6refNil else c6refT) = c6refT from by
      simp +decide [c6refT, isNilRef]] at h
    exact h
  · simp +decide [renderNullable, unionMember, visualizeTypeAnnot, c6refT, isInterType,
      isFnType, AstType.loc, advance, nlIter, writeRaw, logWrite, symbolW, SW0]

/-! ### Claim C8: identifier-character adjacency across tokens -/

/-- Two consecutive logged tokens that touch in the output (the second
starts exactly where the first ends) with identifier characters on both
sides of the boundary: the fusion the claim says never happens. -/
def hasFusion : List (Nat × List Char) → Bool
  | t1 :: t2 :: rest =>
    (t1.1 + t1.2.length == t2.1 && isIdentifierChar (t1.2.getLastD ' ')
      && isIdentifierChar (t2.2.headD ' ')) || hasFusion (t2 :: rest)
  | _ => false

/-- `a and b` with every node at the degenerate position `(0,0)` and no CST
records. -/
def c8block : AstStat :=
  .block ⟨⟨0, 0⟩, ⟨0, 0⟩⟩ false
    [.exprStat ⟨⟨0, 0⟩, ⟨0, 0⟩⟩ false
      (.binary ⟨⟨0, 0⟩, ⟨0, 0⟩⟩ .andOp
        (.globalRef ⟨⟨0, 0⟩, ⟨0, 0⟩⟩ "a".data)
        (.globalRef ⟨⟨0, 0⟩, ⟨0, 0⟩⟩ "b".data) none)] none

/-- Claim C8 counterexample: printing `a and b` with coinciding source
positions and no CST records yields `aand b` — the identifier `a` and the
operator spelling `and` (emitted through the guard-free `symbol` channel
after `maybeSpace` declines to pad) contribute adjacent identifier
characters from distinct tokens. -/
theorem binary_and_fuses_identifiers :
    (transpileB c8block).ss = "aand b".data ∧
    hasFusion (transpileB c8block).toks = true := by
  have h : transpileB c8block
      = ⟨"aand b".data, ⟨0, 6⟩, 'b', [(0, ['a']), (1, "and".data), (5, ['b'])]⟩ := by
    simp +decide [transpileB, visualizeBlockBody, statListLoop, visualizeStat, c8block,
      visualizeExpr, AstStat.loc, AstStat.hasSemicolon, AstExpr.loc, binOpToString,
      binOpReserve, maybeSpace, space, advance, nlIter, writeRaw, logWrite, symbolW,
      identifier, keyword, SW0, isIdentifierChar, isIdentifierStartChar, isDigit]
  rw [h]
  exact ⟨rfl, by decide⟩

/-- Claim C8 (amended): the `identifier` and `keyword` writer channels
insert a space whenever the previously emitted character is an identifier
character, so tokens emitted through them never touch a preceding
identifier character; the `symbol` channel writes its argument as-is with
no guard — and binary operator spellings, including the keyword-spelled
`and`/`or`, go through `symbol`, so the claimed invariant fails for them
when no CST opposition data separates the tokens (see the
counterexample). -/
theorem token_adjacency_guards :
    (∀ (w : StringWriter) (s : List Char), s ≠ [] → isIdentifierChar w.lastChar = true →
      (identifier w s).ss = w.ss ++ (' ' :: s)) ∧
    (∀ (w : StringWriter) (s : List Char), s ≠ [] → isIdentifierChar w.lastChar = false →
      (identifier w s).ss = w.ss ++ s) ∧
    (∀ (w : StringWriter) (s : List Char), s ≠ [] → isIdentifierChar w.lastChar = true →
      (keyword w s).ss = w.ss ++ (' ' :: s)) ∧
    (∀ (w : StringWriter) (s : List Char), s ≠ [] → isIdentifierChar w.lastChar = false →
      (keyword w s).ss = w.ss ++ s) ∧
    (∀ (w : StringWriter) (s : List Char), (symbolW w s).ss = w.ss ++ s) := by
  refine ⟨?_, ?_, ?_, ?_, ?_⟩
  · intro w s hs hg
    simp [identifier, hs, hg, logWrite, space, List.append_assoc]
  · intro w s hs hg
    simp [identifier, hs, hg, logWrite]
  · intro w s hs hg
    simp [keyword, hs, hg, logWrite, space, List.append_assoc]
  · intro w s hs hg
    simp [keyword, hs, hg, logWrite]
  · intro w s
    by_cases hs : s = []
    · simp [symbolW, logWrite, hs]
    · simp [symbolW, logWrite, hs]

/-- Claim C8 witness: the guard at work — after output ending in `d`, an
identifier `b` is emitted with a separating space; a symbol is written
as-is. -/
theorem token_adjacency_guards_witness :
    (identifier ⟨"aand".data, ⟨0, 4⟩, 'd', []⟩ "b".data).ss = "aand".data ++ (' ' :: "b".data) ∧
    (symbolW ⟨"a".data, ⟨0, 1⟩, 'a', []⟩ "and".data).ss = "a".data ++ "and".data :=
  ⟨token_adjacency_guards.1 ⟨"aand".data, ⟨0, 4⟩, 'd', []⟩ "b".data (by decide) (by decide),
   token_adjacency_guards.2.2.2.2 ⟨"a".data, ⟨0, 1⟩, 'a', []⟩ "and".data⟩

end LuauSpec
